import Mathlib

/-!
Verification of the antigravity-api-proxy core against its specification.

This file shallowly embeds the relevant JavaScript modules:
  * `src/src/api-keys/rate-limiter.js` (sliding-window rate limiting),
  * the API-key validator (glob matching, `validateApiKey`),
  * the OpenAI → Anthropic request converter and message merging,
  * the Anthropic → OpenAI streaming adapter,
  * the account-selection strategy factory.

Conventions of the embedding:
  * JavaScript millisecond timestamps are `Nat`; comparisons that in JS mix
    signs (`ts > now - 60000`) are carried out in `Int`.
  * JS `undefined`/`null` is `Option.none`; JS truthiness of numbers and
    strings (`0`, `""` falsy) is modelled explicitly at each use site.
  * `crypto` identifiers and `Date.now()` construction stamps are opaque to
    every claim; generated ids become parameters, clock stamps are elided.
  * `JSON.parse` is the host runtime's parser; it is abstracted as a
    `String → Option Json` parameter of the conversion functions.
-/

namespace AntigravityProxy

/-! ## Rate limiter (`src/src/api-keys/rate-limiter.js`) -/

/-- Per-key window state: `Map<keyId, { rpm: number[], rph: number[] }>` value. -/
structure RLData where
  rpm : List Nat
  rph : List Nat
deriving DecidableEq, Repr

/-- JS numeric truthiness of an optional limit: `null`/`undefined`/`0` are falsy. -/
def truthyNum : Option Nat → Bool
  | none => false
  | some n => n != 0

/-- JS `Math.min(...xs)` over a list of timestamps (callers guarantee nonemptiness). -/
def listMin : List Nat → Nat
  | [] => 0
  | h :: t => t.foldl Nat.min h

/-- JS `Math.ceil(a / b)` for integers, `b > 0`. -/
def ceilDiv (a b : Int) : Int := (a + b - 1).fdiv b

/-- JS `data.rpm.filter(ts => ts > now - 60 * 1000)`, computed in `Int` as JS does. -/
def minuteWindow (now : Nat) (l : List Nat) : List Nat :=
  l.filter (fun ts => decide ((now : Int) - 60 * 1000 < (ts : Int)))

/-- JS `data.rph.filter(ts => ts > now - 60 * 60 * 1000)`. -/
def hourWindow (now : Nat) (l : List Nat) : List Nat :=
  l.filter (fun ts => decide ((now : Int) - 60 * 60 * 1000 < (ts : Int)))

/-- The API-key record consumed by the validator and the rate limiter
(fields of the SQLite row relevant to validation, JSON fields parsed). -/
structure KeyEntry where
  id : String
  enabled : Bool
  expires_at : Option Nat
  ip_whitelist : Option (List String)
  allowed_models : Option (List String)
  rate_limit_rpm : Option Nat
  rate_limit_rph : Option Nat
deriving DecidableEq, Repr

/-- JS `rate_limit_rpm && currentRpm >= rate_limit_rpm` (limit `0`/absent never fires). -/
def rpmExceeded (entry : KeyEntry) (currentRpm : Nat) : Bool :=
  match entry.rate_limit_rpm with
  | none => false
  | some n => n != 0 && decide (n ≤ currentRpm)

/-- JS `rate_limit_rph && currentRph >= rate_limit_rph`. -/
def rphExceeded (entry : KeyEntry) (currentRph : Nat) : Bool :=
  match entry.rate_limit_rph with
  | none => false
  | some n => n != 0 && decide (n ≤ currentRph)

/-- Result of `checkRateLimit` (the JS `current: {rpm, rph}` object is flattened). -/
structure RLResult where
  allowed : Bool
  error : Option String
  retryAfter : Option Int
  currentRpm : Nat
  currentRph : Nat
deriving DecidableEq, Repr

/-- JS `checkRateLimit(keyEntry)`: pure rendering of the JS function; the in-place
mutation of the per-key window data (`data.rpm = data.rpm.filter(...)`) is
returned as the second component. -/
def checkRateLimit (entry : KeyEntry) (now : Nat) (data : RLData) : RLResult × RLData :=
  if !truthyNum entry.rate_limit_rpm && !truthyNum entry.rate_limit_rph then
    ({ allowed := true, error := none, retryAfter := none, currentRpm := 0, currentRph := 0 },
     data)
  else
    let rpm := minuteWindow now data.rpm
    let rph := hourWindow now data.rph
    let currentRpm := rpm.length
    let currentRph := rph.length
    let data' : RLData := { rpm := rpm, rph := rph }
    if rpmExceeded entry currentRpm then
      ({ allowed := false
       , error := some ("Rate limit exceeded: " ++ toString currentRpm ++ "/"
           ++ toString (entry.rate_limit_rpm.getD 0) ++ " requests per minute")
       , retryAfter := some (max 1 (ceilDiv ((listMin rpm : Int) + 60 * 1000 - (now : Int)) 1000))
       , currentRpm := currentRpm, currentRph := currentRph }, data')
    else if rphExceeded entry currentRph then
      ({ allowed := false
       , error := some ("Rate limit exceeded: " ++ toString currentRph ++ "/"
           ++ toString (entry.rate_limit_rph.getD 0) ++ " requests per hour")
       , retryAfter := some (max 1 (ceilDiv ((listMin rph : Int) + 60 * 60 * 1000 - (now : Int)) 1000))
       , currentRpm := currentRpm, currentRph := currentRph }, data')
    else
      ({ allowed := true, error := none, retryAfter := none
       , currentRpm := currentRpm, currentRph := currentRph }, data')

/-- JS `recordRequest(keyId)`: pushes the current time onto both windows of the key. -/
def recordRequest (now : Nat) (data : RLData) : RLData :=
  { rpm := data.rpm ++ [now], rph := data.rph ++ [now] }

/-! ## Glob matching and key validation (validator module of the api-keys package) -/

/-- JS `String.prototype.toLowerCase()`: character-wise lowering (identical to
`String.toLower`, stated via `toList` so concrete instances evaluate). -/
def jsToLower (s : String) : String := String.mk (s.toList.map Char.toLower)

/-- JS line terminators: the characters `.` in a RegExp built without the `s`
flag never matches (`\n`, `\r`, U+2028, U+2029). -/
def isLineTerminator (c : Char) : Bool :=
  c = '\n' || c = '\r' || c = '\u2028' || c = '\u2029'

/-- Backtracking helper for the `*` wildcard: the compiled regex `.*` lets the
remaining pattern match at any suffix reachable by consuming characters `.`
can match — the source regex has no `s` flag, so a line terminator is never
consumed by the wildcard. -/
def suffixAny (f : List Char → Bool) : List Char → Bool
  | [] => f []
  | d :: m => f (d :: m) || (!isLineTerminator d && suffixAny f m)

/-- Semantics of the regex `matchModelPattern` compiles a pattern to:
every character except `*` is escaped to a case-insensitive literal
(`'i'` flag; ASCII folding — model ids contain no non-ASCII case pairs),
`*` becomes `.*` (dot excludes line terminators: no `s` flag), and the whole
is anchored `^...$`. -/
def globMatch : List Char → List Char → Bool
  | [], m => m.isEmpty
  | c :: p, m =>
    if c = '*' then
      suffixAny (globMatch p) m
    else
      match m with
      | [] => false
      | d :: m' => (c.toLower == d.toLower) && globMatch p m'

/-- JS `matchModelPattern(model, pattern)`: falsy (empty) pattern or model never match. -/
def matchModelPattern (model pattern : String) : Bool :=
  if pattern = "" || model = "" then false
  else globMatch pattern.toList model.toList

/-- JS `isModelAllowed(model, allowedModels)`: `null` or empty list allows all. -/
def isModelAllowed (model : String) (allowedModels : Option (List String)) : Bool :=
  match allowedModels with
  | none => true
  | some l => if l.isEmpty then true else l.any (fun pattern => matchModelPattern model pattern)

/-- JS `matchIpPattern(ip, pattern)`: normalizes IPv6 loopback and the
IPv6-mapped-IPv4 prefix, then applies the same glob compilation. -/
def matchIpPattern (ip pattern : String) : Bool :=
  if pattern = "" || ip = "" then false
  else
    let normalizedIp := if ip = "::1" then "127.0.0.1" else ip
    let normalizedPattern := if pattern = "::1" then "127.0.0.1" else pattern
    let cleanIp := if normalizedIp.startsWith "::ffff:" then normalizedIp.drop 7 else normalizedIp
    globMatch normalizedPattern.toList cleanIp.toList

/-- JS `isIpAllowed(ip, ipWhitelist)`: `null` or empty list allows all. -/
def isIpAllowed (ip : String) (ipWhitelist : Option (List String)) : Bool :=
  match ipWhitelist with
  | none => true
  | some l => if l.isEmpty then true else l.any (fun pattern => matchIpPattern ip pattern)

/-- JS `keyEntry.expires_at && Date.now() > keyEntry.expires_at` (0 is falsy). -/
def expiredCheck (expires_at : Option Nat) (now : Nat) : Bool :=
  match expires_at with
  | none => false
  | some t => t != 0 && decide (t < now)

/-- Result of `validateApiKey`. -/
structure ValidationResult where
  valid : Bool
  key : Option KeyEntry
  error : Option String
  status : Option Nat := none
  retryAfter : Option Int := none
deriving DecidableEq, Repr

/-- JS `if (ip && !isIpAllowed(ip, keyEntry.ip_whitelist))` — absent or empty ip skips. -/
def ipRejected (ip : Option String) (wl : Option (List String)) : Bool :=
  match ip with
  | none => false
  | some i => i != "" && !isIpAllowed i wl

/-- JS `if (model && !isModelAllowed(model, keyEntry.allowed_models))`. -/
def modelRejected (model : Option String) (am : Option (List String)) : Bool :=
  match model with
  | none => false
  | some m => m != "" && !isModelAllowed m am

/-- JS `validateApiKey(providedKey, {model, ip})`, with the SHA-256 hash and the
database lookup abstracted as `hashApiKey` / `findApiKeyByHash`, the clock as
`now` and the rate-limit store as a total map from key id to window data. -/
def validateApiKey (hashApiKey : String → String)
    (findApiKeyByHash : String → Option KeyEntry)
    (now : Nat) (store : String → RLData)
    (providedKey : Option String) (model ip : Option String) : ValidationResult :=
  if providedKey = none || providedKey = some "" then
    { valid := false, key := none, error := some "API key is required", status := some 401 }
  else
    let k := providedKey.getD ""
    match findApiKeyByHash (hashApiKey k) with
    | none =>
      { valid := false, key := none, error := some "Invalid API key", status := some 401 }
    | some keyEntry =>
      if !keyEntry.enabled then
        { valid := false, key := some keyEntry, error := some "API key is disabled"
        , status := some 403 }
      else if expiredCheck keyEntry.expires_at now then
        { valid := false, key := some keyEntry, error := some "API key has expired"
        , status := some 403 }
      else if ipRejected ip keyEntry.ip_whitelist then
        { valid := false, key := some keyEntry
        , error := some ("IP address " ++ ip.getD "" ++ " is not allowed for this API key")
        , status := some 403 }
      else if modelRejected model keyEntry.allowed_models then
        { valid := false, key := some keyEntry
        , error := some ("Model " ++ model.getD "" ++ " is not allowed for this API key")
        , status := some 403 }
      else
        let r := (checkRateLimit keyEntry now (store keyEntry.id)).1
        if !r.allowed then
          { valid := false, key := some keyEntry, error := r.error, status := some 429
          , retryAfter := r.retryAfter }
        else
          { valid := true, key := some keyEntry, error := none }

/-- JSON values, as produced by the host runtime's `JSON.parse` (numbers are
carried as integers; no claim inspects a parsed numeric payload). -/
inductive Json
  | null
  | bool (b : Bool)
  | num (n : Int)
  | str (s : String)
  | arr (l : List Json)
  | obj (m : List (String × Json))

/-- One Anthropic content block of a canonical message. -/
inductive ContentPart
  | text (text : String)
  | image (media_type data : String)
  | tool_use (id name : String) (input : Json)
  | tool_result (tool_use_id : String) (content : String)

/-- Anthropic message content: JS `null`, a plain string, or a block array. -/
inductive Content
  | nullc
  | str (s : String)
  | parts (l : List ContentPart)

/-- Roles occurring in converted Anthropic messages (system is extracted,
`tool`/`function` turns become user turns). -/
inductive ARole
  | user
  | assistant
deriving DecidableEq, Repr

/-- A converted (Anthropic-format) message. -/
structure Msg where
  role : ARole
  content : Content

/-- Adjacent messages carry different roles. -/
def roleNe (a b : Msg) : Prop := a.role ≠ b.role

/-- One part of an OpenAI content array. -/
inductive OAIPart
  | text (t : String)
  | image_url (url : String)
  | otherPart
deriving DecidableEq, Repr

/-- OpenAI message content: absent/`null`, a string, or a part array. -/
inductive OAIContent
  | nullc
  | str (s : String)
  | arr (l : List OAIPart)
deriving DecidableEq, Repr

/-- An OpenAI tool call (`function` payload flattened into `name`/`arguments`). -/
structure OAIToolCall where
  id : String
  type : String
  name : String
  arguments : Option String
deriving DecidableEq, Repr

/-- Legacy OpenAI `function_call` payload (`""` models an absent name). -/
structure OAIFunctionCall where
  name : String
  arguments : Option String
deriving DecidableEq, Repr

/-- An OpenAI chat message; absent `tool_calls` is the empty list, absent
string fields are `""`. -/
structure OAIMsg where
  role : String
  content : OAIContent := .nullc
  tool_calls : List OAIToolCall := []
  function_call : Option OAIFunctionCall := none
  tool_call_id : String := ""
  name : String := ""

/-- JS `extractContent(content)`: string passes through, arrays keep the text
parts joined with newlines, anything else becomes `""`. -/
def extractContent : OAIContent → String
  | .str s => s
  | .arr l =>
      String.intercalate "\n"
        (l.filterMap (fun part => match part with | .text t => some t | _ => none))
  | .nullc => ""

/-- The regex `^data:([^;]+);base64,(.+)$` applied to an image URL: media type
is the nonempty run before the first `;`, which must be followed by the
literal `;base64,` and a nonempty newline-free payload. -/
def parseDataUrl (url : String) : Option (String × String) :=
  if url.startsWith "data:" then
    let rest := (url.drop 5).toList
    let mt := rest.takeWhile (fun c => c ≠ ';')
    let tail' := rest.dropWhile (fun c => c ≠ ';')
    if mt.isEmpty then none
    else if tail'.take 8 = ";base64,".toList then
      let d := tail'.drop 8
      if d.isEmpty || d.any (fun c => c = '\n' || c = '\r') then none
      else some (String.mk mt, String.mk d)
    else none
  else none

/-- JS `convertOpenAIContent(content)`: text and base64 image parts are
converted, a lone text part collapses back to a plain string. -/
def convertOpenAIContent : OAIContent → Content
  | .str s => .str s
  | .nullc => .nullc
  | .arr l =>
    let ac := l.foldl
      (fun acc part =>
        match part with
        | .text t => acc ++ [ContentPart.text t]
        | .image_url url =>
          match parseDataUrl url with
          | some (mt, d) => acc ++ [ContentPart.image mt d]
          | none => acc
        | .otherPart => acc) []
    match ac with
    | [ContentPart.text t] => Content.str t
    | _ => Content.parts ac

/-- JS `JSON.parse(toolCall.function.arguments || '{}')` with the `catch` branch:
a parse failure preserves the raw arguments string under a `raw` key. -/
def parseToolArgs (jp : String → Option Json) (arguments : Option String) : Json :=
  let eff := match arguments with
    | none => "\x7b\x7d"
    | some s => if s = "" then "\x7b\x7d" else s
  match jp eff with
  | some j => j
  | none =>
    Json.obj [("raw", match arguments with | some s => Json.str s | none => Json.null)]

/-- The `if (msg.content) { ... if (text) push({type:'text'}) }` prologue of
`convertAssistantMessage`: at most one text part. -/
def assistantTextPart (msg : OAIMsg) : List ContentPart :=
  match msg.content with
  | .nullc => []
  | .str s =>
    if s = "" then []
    else if extractContent (.str s) = "" then [] else [ContentPart.text (extractContent (.str s))]
  | .arr l =>
    if extractContent (.arr l) = "" then [] else [ContentPart.text (extractContent (.arr l))]

/-- JS `convertAssistantMessage(msg)`: optional text part, one `tool_use` block
per `function`-typed tool call, legacy `function_call` appended last; a lone
text block collapses to a string, an empty list to `""`. -/
def convertAssistantMessage (jp : String → Option Json) (msg : OAIMsg) : Content :=
  let textPart : List ContentPart := assistantTextPart msg
  let withTools := msg.tool_calls.foldl
    (fun acc tc =>
      if tc.type = "function" then
        acc ++ [ContentPart.tool_use tc.id tc.name (parseToolArgs jp tc.arguments)]
      else acc) textPart
  let full := match msg.function_call with
    | some fc =>
      withTools ++ [ContentPart.tool_use (if fc.name = "" then "function" else fc.name)
        fc.name (parseToolArgs jp fc.arguments)]
    | none => withTools
  match full with
  | [] => Content.str ""
  | [ContentPart.text t] => Content.str t
  | l => Content.parts l

/-- The coercion inside `mergeContent`: an array keeps its parts, a truthy
string becomes one text part, falsy content contributes nothing. -/
def contentParts : Content → List ContentPart
  | .str s => if s = "" then [] else [.text s]
  | .parts l => l
  | .nullc => []

/-- JS `mergeContent(a, b)`: concatenation of the two coerced part lists. -/
def mergeContent (a b : Content) : Content :=
  .parts (contentParts a ++ contentParts b)

/-- Loop body of `mergeConsecutiveMessages`: `cur` is the message being
accumulated; an equal-role successor is merged into it, otherwise it is
flushed. -/
def mergeLoop : Msg → List Msg → List Msg
  | cur, [] => [cur]
  | cur, m :: ms =>
    if cur.role = m.role then
      mergeLoop { cur with content := mergeContent cur.content m.content } ms
    else
      cur :: mergeLoop m ms

/-- JS `mergeConsecutiveMessages(messages)`. -/
def mergeConsecutiveMessages : List Msg → List Msg
  | [] => []
  | m :: ms => mergeLoop m ms

/-- The static `OPENAI_MODEL_MAP` alias table (keys are lowercase). -/
def OPENAI_MODEL_MAP : List (String × String) :=
  [ ("gpt-4", "claude-opus-4-5-thinking")
  , ("gpt-4-turbo", "claude-opus-4-5-thinking")
  , ("gpt-4-turbo-preview", "claude-opus-4-5-thinking")
  , ("gpt-4-0125-preview", "claude-opus-4-5-thinking")
  , ("gpt-4-1106-preview", "claude-opus-4-5-thinking")
  , ("gpt-4o", "gemini-3-pro-high")
  , ("gpt-4o-mini", "gemini-3-flash")
  , ("gpt-3.5-turbo", "gemini-3-flash")
  , ("gpt-3.5-turbo-0125", "gemini-3-flash")
  , ("gpt-3.5-turbo-1106", "gemini-3-flash")
  , ("gpt-3.5-turbo-instruct", "gemini-3-flash")
  , ("o1", "claude-opus-4-5-thinking")
  , ("o1-preview", "claude-opus-4-5-thinking")
  , ("o1-mini", "claude-sonnet-4-5-thinking")
  , ("claude-3-opus", "claude-opus-4-5-thinking")
  , ("claude-3-sonnet", "claude-sonnet-4-5-thinking")
  , ("claude-3-haiku", "gemini-3-flash")
  , ("gemini-pro", "gemini-3-pro-high")
  , ("gemini-flash", "gemini-3-flash") ]

/-- JS `mapModel(openaiModel)`: falsy input defaults, a lowercase table hit maps,
everything else passes through unchanged (the source's claude/gemini
`includes` branch and its fallthrough both return the input). -/
def mapModel (openaiModel : Option String) : String :=
  match openaiModel with
  | none => "gemini-3-flash"
  | some s =>
    if s = "" then "gemini-3-flash"
    else
      match OPENAI_MODEL_MAP.lookup (jsToLower s) with
      | some mapped => mapped
      | none => s

/-- The JS `stop` parameter: a single string or an array. -/
inductive StopParam
  | one (s : String)
  | many (l : List String)
deriving DecidableEq, Repr

/-- An OpenAI Chat Completions request (float-valued passthrough parameters
are carried as opaque integers; no claim inspects their values). -/
structure OAIRequest where
  model : Option String := none
  messages : List OAIMsg := []
  max_tokens : Option Nat := none
  max_completion_tokens : Option Nat := none
  temperature : Option Int := none
  top_p : Option Int := none
  stop : Option StopParam := none
  stream : Option Bool := none
  n : Option Nat := none
  presence_penalty : Option Int := none
  frequency_penalty : Option Int := none
  user : Option String := none

/-- An Anthropic Messages request as assembled by the converter. -/
structure AnthropicRequest where
  model : String
  messages : List Msg
  max_tokens : Nat
  stream : Bool
  system : Option String := none
  temperature : Option Int := none
  top_p : Option Int := none
  stop_sequences : Option (List String) := none

/-- JS `a || d` for an optional numeric parameter (`0` falsy). -/
def orNum (a : Option Nat) (d : Nat) : Nat :=
  match a with
  | none => d
  | some n => if n = 0 then d else n

/-- Body of the message loop of `convertOpenAIToAnthropic`: accumulates the
blank-line-joined system prompt and the converted user/assistant turns. -/
def convertStep (jp : String → Option Json) (acc : Option String × List Msg)
    (msg : OAIMsg) : Option String × List Msg :=
  let (sys, conv) := acc
  if msg.role = "system" then
    (match sys with
     | none => some (extractContent msg.content)
     | some s => some (s ++ "\n\n" ++ extractContent msg.content), conv)
  else if msg.role = "user" then
    (sys, conv ++ [{ role := .user, content := convertOpenAIContent msg.content }])
  else if msg.role = "assistant" then
    (sys, conv ++ [{ role := .assistant, content := convertAssistantMessage jp msg }])
  else if msg.role = "tool" then
    (sys, conv ++ [{ role := .user
                   , content := .parts [.tool_result msg.tool_call_id (extractContent msg.content)] }])
  else if msg.role = "function" then
    (sys, conv ++ [{ role := .user
                   , content := .parts [.tool_result (if msg.name = "" then "function" else msg.name)
                       (extractContent msg.content)] }])
  else
    (sys, conv)

/-- JS `convertOpenAIToAnthropic(openaiRequest)` (the host JSON parser is the
`jp` parameter, used for tool-call argument payloads). -/
def convertOpenAIToAnthropic (jp : String → Option Json) (req : OAIRequest) : AnthropicRequest :=
  let acc := req.messages.foldl (convertStep jp) (none, [])
  { model := mapModel req.model
  , messages := mergeConsecutiveMessages acc.2
  , max_tokens := orNum req.max_tokens (orNum req.max_completion_tokens 4096)
  , stream := req.stream.getD false
  , system := match acc.1 with
      | none => none
      | some s => if s = "" then none else some s
  , temperature := req.temperature
  , top_p := req.top_p
  , stop_sequences := match req.stop with
      | none => none
      | some (.one s) => if s = "" then none else some [s]
      | some (.many l) => some l }

/-! ## Streaming adapter (`createOpenAIStreamAdapter` and
`src/src/format/openai/response-converter.js`) -/

/-- One tool-call entry of a streaming delta (the nested `function` object is
flattened into `name`/`arguments`). -/
structure ToolCallDelta where
  index : Int
  id : Option String := none
  type : Option String := none
  name : Option String := none
  arguments : Option String := none
deriving DecidableEq, Repr

/-- The `delta` object of an OpenAI streaming chunk. -/
structure Delta where
  role : Option String := none
  content : Option String := none
  tool_calls : Option (List ToolCallDelta) := none
deriving DecidableEq, Repr

/-- An OpenAI streaming chunk as built by `createStreamChunk`. The constant
fields `object`, `system_fingerprint`, `logprobs` and choice index `0`, and
the `created` clock stamp, are elided: they are fixed or host-clock values no
claim concerns. -/
structure StreamChunk where
  id : String
  model : String
  delta : Delta := {}
  finish_reason : Option String := none
deriving DecidableEq, Repr

/-- Options object accepted by `createStreamChunk`. -/
structure ChunkOpts where
  id : String
  model : String
  content : Option String := none
  toolCalls : Option (List ToolCallDelta) := none
  finishReason : Option String := none
  role : Option String := none

/-- JS `createStreamChunk(options)`: `role` and `toolCalls` are set when truthy,
`content` whenever defined, and `finish_reason` is `finishReason || null`. -/
def createStreamChunk (o : ChunkOpts) : StreamChunk :=
  { id := o.id
  , model := o.model
  , delta :=
    { role := match o.role with | some r => if r = "" then none else some r | none => none
    , content := o.content
    , tool_calls := o.toolCalls }
  , finish_reason :=
      match o.finishReason with | some s => if s = "" then none else some s | none => none }

/-- JS `createDoneMarker()`. -/
def createDoneMarker : String := "[DONE]"

/-- A content block announced by `content_block_start`. -/
inductive BlockInfo
  | text
  | tool_use (id name : String)
  | thinking
  | otherBlock
deriving DecidableEq, Repr

/-- A `content_block_delta` payload. -/
inductive DeltaInfo
  | text_delta (text : String)
  | input_json_delta (partial_json : String)
  | thinking_delta
  | otherDelta
deriving DecidableEq, Repr

/-- A parsed Anthropic SSE event; `otherEvent` covers unrecognized or
malformed (`!event || !event.type`) events. -/
inductive AEvent
  | message_start
  | content_block_start (index : Nat) (content_block : Option BlockInfo)
  | content_block_delta (index : Nat) (delta : Option DeltaInfo)
  | content_block_stop (index : Nat)
  | message_delta (stop_reason : Option String)
  | message_stop
  | ping
  | error (message type_ : Option String)
  | otherEvent
deriving DecidableEq, Repr

/-- Mutable state closed over by `createOpenAIStreamAdapter`. -/
structure AdapterState where
  sentRole : Bool := false
  currentToolIndex : Int := -1
  toolCallMap : List (Nat × Int) := []
deriving DecidableEq, Repr

/-- One emitted SSE line: a `data: <json chunk>` record, a `data: <json error>`
record, or the terminal `data: [DONE]` marker. -/
inductive Frame
  | chunk (c : StreamChunk)
  | errorFrame (message type_ : String)
  | done
deriving DecidableEq, Repr

/-- JS `x || d` for an optional string (empty string falsy). -/
def jsOrStr (o : Option String) (d : String) : String :=
  match o with
  | none => d
  | some s => if s = "" then d else s

/-- The adapter's `transform(event)`: returns the emitted frame (or none) and
the successor state; `completionId` and `model` are the values closed over at
adapter creation. -/
def transform (completionId model : String) (st : AdapterState) :
    AEvent → Option Frame × AdapterState
  | .message_start =>
    if st.sentRole then (none, st)
    else
      (some (.chunk (createStreamChunk
        { id := completionId, model := model, role := some "assistant" })),
       { st with sentRole := true })
  | .content_block_start index blk =>
    match blk with
    | some (.tool_use bid bname) =>
      let ti := st.currentToolIndex + 1
      (some (.chunk (createStreamChunk
        { id := completionId, model := model
        , toolCalls := some [{ index := ti, id := some bid, type := some "function"
                             , name := some bname, arguments := some "" }] })),
       { st with currentToolIndex := ti, toolCallMap := (index, ti) :: st.toolCallMap })
    | _ => (none, st)
  | .content_block_delta index dl =>
    match dl with
    | some (.text_delta t) =>
      (some (.chunk (createStreamChunk { id := completionId, model := model, content := some t })),
       st)
    | some (.input_json_delta pj) =>
      match st.toolCallMap.lookup index with
      | some ti =>
        (some (.chunk (createStreamChunk
          { id := completionId, model := model
          , toolCalls := some [{ index := ti, arguments := some pj }] })), st)
      | none => (none, st)
    | _ => (none, st)
  | .content_block_stop _ => (none, st)
  | .message_delta stopReason =>
    match stopReason with
    | some sr =>
      if sr = "" then (none, st)
      else
        let finishReason :=
          if sr = "max_tokens" then "length"
          else if sr = "tool_use" then "tool_calls"
          else "stop"
        (some (.chunk (createStreamChunk
          { id := completionId, model := model, finishReason := some finishReason })), st)
    | none => (none, st)
  | .message_stop => (some .done, st)
  | .ping => (none, st)
  | .error msg ty =>
    (some (.errorFrame (jsOrStr msg "Unknown error") (jsOrStr ty "server_error")), st)
  | .otherEvent => (none, st)

/-- The stream loop of `transformAnthropicStreamToOpenAI`: feed every event
through `transform`, yielding each non-null result. -/
def runFrames (completionId model : String) : AdapterState → List AEvent → List Frame
  | _, [] => []
  | st, e :: es =>
    match transform completionId model st e with
    | (some f, st') => f :: runFrames completionId model st' es
    | (none, st') => runFrames completionId model st' es

/-- JS `transformAnthropicStreamToOpenAI(stream, model)`: a fresh adapter state,
with the once-generated completion id abstracted as a parameter. -/
def transformAnthropicStreamToOpenAI (completionId model : String)
    (events : List AEvent) : List Frame :=
  runFrames completionId model {} events

/-- The completion id a frame carries, if any: chunk frames embed the id,
error frames and the `[DONE]` marker have no id field. -/
def frameId : Frame → Option String
  | .chunk c => some c.id
  | .errorFrame _ _ => none
  | .done => none

/-! ## Strategy factory (`src/src/account-manager/strategies/index.js` and
`src/src/config.js`) -/

/-- The strategy classes reachable from the factory: only `RoundRobinStrategy`
exists (its internals live outside the factory module). -/
inductive StrategyInstance
  | RoundRobinStrategy
deriving DecidableEq, Repr

set_option linter.unusedVariables false in
/-- JS `createStrategy(strategyName, config)`: the name is ignored entirely. -/
def createStrategy (strategyName : Option String) : StrategyInstance :=
  StrategyInstance.RoundRobinStrategy

/-- JS `isValidStrategy(name)`: falsy names rejected, otherwise only the
lowercase forms `round-robin` and `roundrobin` are accepted. -/
def isValidStrategy (name : Option String) : Bool :=
  match name with
  | none => false
  | some n =>
    if n = "" then false
    else jsToLower n == "round-robin" || jsToLower n == "roundrobin"

/-- JS `DEFAULT_CONFIG.accountSelection.strategy` from `src/src/config.js`. -/
def defaultAccountSelectionStrategy : String := "hybrid"

/-! ## Theorems -/

/-- C1: `validateApiKey` performs its checks in the fixed short-circuiting
order presence → hash lookup → enabled → not-expired → IP pattern → model
pattern → rate limit; in particular, for every key that is found, enabled and
expired, the result is the expiration error (status 403) regardless of the
requested model, the client IP, and the rate-limit window state. -/
theorem validateApiKey_expired_shortcircuits
    (hashApiKey : String → String) (findApiKeyByHash : String → Option KeyEntry)
    (now : Nat) (store : String → RLData) (k : String) (entry : KeyEntry)
    (model ip : Option String)
    (hk : k ≠ "")
    (hfind : findApiKeyByHash (hashApiKey k) = some entry)
    (hen : entry.enabled = true)
    (hexp : expiredCheck entry.expires_at now = true) :
    validateApiKey hashApiKey findApiKeyByHash now store (some k) model ip =
      { valid := false, key := some entry, error := some "API key has expired"
      , status := some 403, retryAfter := none } := by
  unfold validateApiKey
  simp [hk, hfind, hen, hexp]

/-- Key record for the C1 witness: expired, with a model whitelist that would
reject the requested model if the order were different. -/
def entryC1 : KeyEntry :=
  { id := "key-1", enabled := true, expires_at := some 1000, ip_whitelist := none
  , allowed_models := some ["gemini-*"], rate_limit_rpm := none, rate_limit_rph := none }

/-- C1 witness: a concrete expired key queried with a model its whitelist
would deny still yields the expiration error. -/
theorem validateApiKey_expired_shortcircuits_witness :
    ("sk-test" ≠ (("" : String))
      ∧ (fun h => if h = "H" then some entryC1 else none) ((fun _ => "H") "sk-test") = some entryC1
      ∧ entryC1.enabled = true
      ∧ expiredCheck entryC1.expires_at 2000 = true)
    ∧ validateApiKey (fun _ => "H") (fun h => if h = "H" then some entryC1 else none) 2000
        (fun _ => { rpm := [], rph := [] }) (some "sk-test") (some "claude-opus-4-5") none =
      { valid := false, key := some entryC1, error := some "API key has expired"
      , status := some 403, retryAfter := none } :=
  ⟨⟨by decide, by decide, by decide, by decide⟩,
   validateApiKey_expired_shortcircuits (fun _ => "H")
     (fun h => if h = "H" then some entryC1 else none) 2000
     (fun _ => { rpm := [], rph := [] }) "sk-test" entryC1 (some "claude-opus-4-5") none
     (by decide) (by decide) (by decide) (by decide)⟩

/-- C2: with a configured minute limit `n > 0` and a saturated minute window,
`checkRateLimit` rejects and returns
`retryAfter = max 1 ⌈(oldest + 60s − now) / 1000⌉`. -/
theorem checkRateLimit_rpm_saturated (entry : KeyEntry) (now : Nat) (data : RLData) (n : Nat)
    (hlim : entry.rate_limit_rpm = some n) (hn : n ≠ 0)
    (hsat : n ≤ (minuteWindow now data.rpm).length) :
    (checkRateLimit entry now data).1.allowed = false ∧
    (checkRateLimit entry now data).1.retryAfter =
      some (max 1 (ceilDiv ((listMin (minuteWindow now data.rpm) : Int) + 60 * 1000 - (now : Int)) 1000)) := by
  have htr : truthyNum entry.rate_limit_rpm = true := by simp [truthyNum, hlim, hn]
  have hex : rpmExceeded entry (minuteWindow now data.rpm).length = true := by
    simp [rpmExceeded, hlim, hn, hsat]
  unfold checkRateLimit
  simp [htr, hex]

/-- Key record for the C2 witness: `rpm = 3`, no hour limit. -/
def entryC2 : KeyEntry :=
  { id := "key-2", enabled := true, expires_at := none, ip_whitelist := none
  , allowed_models := none, rate_limit_rpm := some 3, rate_limit_rph := none }

/-- C2 witness: requests recorded at t = 0s, 1s, 2s; a check at t = 3s is
rejected with `retryAfter = 57`. -/
theorem checkRateLimit_rpm_saturated_witness :
    3 ≤ (minuteWindow 3000 [0, 1000, 2000]).length
    ∧ (checkRateLimit entryC2 3000 ⟨[0, 1000, 2000], [0, 1000, 2000]⟩).1.allowed = false
    ∧ (checkRateLimit entryC2 3000 ⟨[0, 1000, 2000], [0, 1000, 2000]⟩).1.retryAfter = some 57 :=
  ⟨by decide,
   (checkRateLimit_rpm_saturated entryC2 3000 ⟨[0, 1000, 2000], [0, 1000, 2000]⟩ 3 rfl
     (by decide) (by decide)).1,
   by rw [(checkRateLimit_rpm_saturated entryC2 3000 ⟨[0, 1000, 2000], [0, 1000, 2000]⟩ 3 rfl
     (by decide) (by decide)).2]; decide⟩

/-- C3: `checkRateLimit` never adds a timestamp — both returned windows are
sublists of the prior windows (lazy pruning only); and `recordRequest` is the
only append, pushing the same current time onto both windows. -/
theorem checkRateLimit_frame_recordRequest_appends (entry : KeyEntry) (now : Nat) (data : RLData) :
    ((checkRateLimit entry now data).2.rpm.Sublist data.rpm
      ∧ (checkRateLimit entry now data).2.rph.Sublist data.rph)
    ∧ recordRequest now data = { rpm := data.rpm ++ [now], rph := data.rph ++ [now] } := by
  refine ⟨?_, rfl⟩
  unfold checkRateLimit
  split
  · exact ⟨List.Sublist.refl _, List.Sublist.refl _⟩
  · dsimp only
    split
    · exact ⟨List.filter_sublist _, List.filter_sublist _⟩
    · split
      · exact ⟨List.filter_sublist _, List.filter_sublist _⟩
      · exact ⟨List.filter_sublist _, List.filter_sublist _⟩

/-- The message the merge loop is accumulating keeps its role. -/
theorem mergeLoop_head : ∀ (ms : List Msg) (cur : Msg),
    ∃ c t, mergeLoop cur ms = { role := cur.role, content := c } :: t := by
  intro ms
  induction ms with
  | nil => intro cur; exact ⟨cur.content, [], rfl⟩
  | cons m ms ih =>
    intro cur
    by_cases h : cur.role = m.role
    · rcases ih { cur with content := mergeContent cur.content m.content } with ⟨c, t, ht⟩
      exact ⟨c, t, by simpa [mergeLoop, h] using ht⟩
    · exact ⟨cur.content, mergeLoop m ms, by simp [mergeLoop, h]⟩

/-- The merge loop never leaves two adjacent messages with equal roles. -/
theorem mergeLoop_chain : ∀ (ms : List Msg) (cur : Msg),
    List.Chain' roleNe (mergeLoop cur ms) := by
  intro ms
  induction ms with
  | nil => intro cur; simp [mergeLoop]
  | cons m ms ih =>
    intro cur
    by_cases h : cur.role = m.role
    · simpa [mergeLoop, h] using ih { cur with content := mergeContent cur.content m.content }
    · rcases mergeLoop_head ms m with ⟨c, t, ht⟩
      rw [show mergeLoop cur (m :: ms) = cur :: mergeLoop m ms from by simp [mergeLoop, h], ht]
      exact List.chain'_cons.mpr ⟨h, ht ▸ ih m⟩

/-- JS `mergeConsecutiveMessages` always produces strictly alternating roles. -/
theorem mergeConsecutiveMessages_chain (l : List Msg) :
    List.Chain' roleNe (mergeConsecutiveMessages l) := by
  cases l with
  | nil => simp [mergeConsecutiveMessages]
  | cons m ms => exact mergeLoop_chain ms m

/-- A run of equal-role messages collapses to the single accumulated message. -/
theorem mergeLoop_same_role : ∀ (ms : List Msg) (cur : Msg),
    (∀ m ∈ ms, m.role = cur.role) →
    mergeLoop cur ms =
      [{ role := cur.role
       , content := ms.foldl (fun a x => mergeContent a x.content) cur.content }] := by
  intro ms
  induction ms with
  | nil => intro cur _; rfl
  | cons m ms ih =>
    intro cur hall
    have h : cur.role = m.role := (hall m (List.mem_cons_self m ms)).symm
    rw [show mergeLoop cur (m :: ms)
          = mergeLoop { cur with content := mergeContent cur.content m.content } ms from by
        simp [mergeLoop, h]]
    rw [ih { cur with content := mergeContent cur.content m.content }
        (fun x hx => hall x (List.mem_cons_of_mem m hx))]
    rfl

/-- Already-alternating messages pass through the merge loop unchanged. -/
theorem mergeLoop_alternating : ∀ (ms : List Msg) (cur : Msg),
    List.Chain' roleNe (cur :: ms) → mergeLoop cur ms = cur :: ms := by
  intro ms
  induction ms with
  | nil => intro cur _; rfl
  | cons m ms ih =>
    intro cur hch
    rcases List.chain'_cons.mp hch with ⟨h1, h2⟩
    have h1' : ¬ (cur.role = m.role) := h1
    rw [show mergeLoop cur (m :: ms) = cur :: mergeLoop m ms from by simp [mergeLoop, h1']]
    rw [ih m h2]

/-- The part list of a merged content is the concatenation of the part lists. -/
theorem contentParts_mergeContent (a b : Content) :
    contentParts (mergeContent a b) = contentParts a ++ contentParts b := rfl

/-- Folding `mergeContent` over a run of messages concatenates all parts. -/
theorem contentParts_foldl : ∀ (l : List Msg) (acc : Content),
    contentParts (l.foldl (fun a x => mergeContent a x.content) acc)
      = contentParts acc ++ (l.map (fun m => contentParts m.content)).flatten := by
  intro l
  induction l with
  | nil => intro acc; simp
  | cons m ms ih =>
    intro acc
    simp only [List.foldl_cons, List.map_cons, List.flatten_cons]
    rw [ih, contentParts_mergeContent, List.append_assoc]

/-- The content of the single message a user run merges into. -/
def mergeFoldContent : List Msg → Content
  | [] => .nullc
  | m :: ms => ms.foldl (fun a x => mergeContent a x.content) m.content

/-- C5: after system extraction and same-role merging the converted messages
strictly alternate (no two adjacent share a role); a nonempty run of user
turns merges to exactly one user turn whose content concatenates the
originals' parts in order; and already-alternating turns pass through
unchanged. -/
theorem convert_merge_alternation (jp : String → Option Json) (req : OAIRequest)
    (umsgs amsgs : List Msg)
    (hne : umsgs ≠ [])
    (hall : ∀ m ∈ umsgs, m.role = ARole.user)
    (halt : List.Chain' roleNe amsgs) :
    List.Chain' roleNe (convertOpenAIToAnthropic jp req).messages
    ∧ mergeConsecutiveMessages umsgs = [{ role := ARole.user, content := mergeFoldContent umsgs }]
    ∧ contentParts (mergeFoldContent umsgs)
        = (umsgs.map (fun m => contentParts m.content)).flatten
    ∧ mergeConsecutiveMessages amsgs = amsgs := by
  refine ⟨mergeConsecutiveMessages_chain _, ?_, ?_, ?_⟩
  · cases umsgs with
    | nil => exact absurd rfl hne
    | cons u us =>
      have hu : u.role = ARole.user := hall u (List.mem_cons_self u us)
      rw [show mergeConsecutiveMessages (u :: us) = mergeLoop u us from rfl]
      rw [mergeLoop_same_role us u
        (fun m hm => (hall m (List.mem_cons_of_mem u hm)).trans hu.symm)]
      rw [hu]
      rfl
  · cases umsgs with
    | nil => exact absurd rfl hne
    | cons u us =>
      simp only [mergeFoldContent, List.map_cons, List.flatten_cons]
      rw [contentParts_foldl]
  · cases amsgs with
    | nil => rfl
    | cons a as => exact mergeLoop_alternating as a halt

/-- C5 witness: a one-user-turn request, a two-message user run, and an
already-alternating pair. -/
theorem convert_merge_alternation_witness :
    List.Chain' roleNe (convertOpenAIToAnthropic (fun _ => none)
        { messages := [{ role := "user", content := .str "hi" }] }).messages
    ∧ mergeConsecutiveMessages
        [{ role := ARole.user, content := .str "a" }, { role := ARole.user, content := .str "b" }]
      = [{ role := ARole.user
         , content := mergeFoldContent
             [{ role := ARole.user, content := .str "a" }, { role := ARole.user, content := .str "b" }] }]
    ∧ contentParts (mergeFoldContent
        [{ role := ARole.user, content := .str "a" }, { role := ARole.user, content := .str "b" }])
      = ((([{ role := ARole.user, content := Content.str "a" },
             { role := ARole.user, content := Content.str "b" }] : List Msg).map
            (fun m => contentParts m.content)).flatten)
    ∧ mergeConsecutiveMessages
        [{ role := ARole.user, content := .str "a" }, { role := ARole.assistant, content := .str "b" }]
      = [{ role := ARole.user, content := .str "a" }, { role := ARole.assistant, content := .str "b" }] :=
  convert_merge_alternation (fun _ => none)
    { messages := [{ role := "user", content := .str "hi" }] }
    [{ role := ARole.user, content := .str "a" }, { role := ARole.user, content := .str "b" }]
    [{ role := ARole.user, content := .str "a" }, { role := ARole.assistant, content := .str "b" }]
    (by simp)
    (by intro m hm; rcases List.mem_cons.mp hm with rfl | hm'; · rfl
        rcases List.mem_cons.mp hm' with rfl | hm''; · rfl
        cases hm'')
    (List.chain'_cons.mpr ⟨by simp [roleNe], List.chain'_singleton _⟩)

/-- Recognizes `tool_use` content blocks. -/
def isToolUse : ContentPart → Bool
  | .tool_use _ _ _ => true
  | _ => false

/-- The `tool_use` blocks of a converted content value, in order. -/
def toolUsesOf (c : Content) : List ContentPart := (contentParts c).filter isToolUse

/-- The tool-use blocks an assistant message should convert to: one per
`function`-typed tool call, in order, plus the legacy `function_call`. -/
def toolUseBlocks (jp : String → Option Json) (msg : OAIMsg) : List ContentPart :=
  (msg.tool_calls.filter (fun tc => tc.type == "function")).map
    (fun tc => ContentPart.tool_use tc.id tc.name (parseToolArgs jp tc.arguments))
  ++ (match msg.function_call with
      | none => []
      | some fc => [ContentPart.tool_use (if fc.name = "" then "function" else fc.name)
          fc.name (parseToolArgs jp fc.arguments)])

/-- The tool-call fold of `convertAssistantMessage` appends exactly the
converted `function`-typed calls. -/
theorem toolcalls_foldl (jp : String → Option Json) :
    ∀ (tcs : List OAIToolCall) (acc : List ContentPart),
    tcs.foldl (fun acc tc =>
        if tc.type = "function" then
          acc ++ [ContentPart.tool_use tc.id tc.name (parseToolArgs jp tc.arguments)]
        else acc) acc
      = acc ++ (tcs.filter (fun tc => tc.type == "function")).map
          (fun tc => ContentPart.tool_use tc.id tc.name (parseToolArgs jp tc.arguments)) := by
  intro tcs
  induction tcs with
  | nil => intro acc; simp
  | cons tc tcs ih =>
    intro acc
    by_cases h : tc.type = "function"
    · rw [List.foldl_cons, if_pos h, List.filter_cons, if_pos (by simpa using h), ih,
        List.map_cons, List.append_assoc]
      rfl
    · rw [List.foldl_cons, if_neg h, List.filter_cons, if_neg (by simpa using h)]
      exact ih acc

/-- Every block produced by `toolUseBlocks` is a `tool_use` block. -/
theorem toolUseBlocks_filter (jp : String → Option Json) (msg : OAIMsg) :
    (toolUseBlocks jp msg).filter isToolUse = toolUseBlocks jp msg := by
  apply List.filter_eq_self.mpr
  intro u hu
  unfold toolUseBlocks at hu
  rcases List.mem_append.mp hu with h | h
  · rcases List.mem_map.mp h with ⟨tc, _, rfl⟩; rfl
  · cases hfc : msg.function_call with
    | none => rw [hfc] at h; cases h
    | some fc =>
      rw [hfc] at h
      rcases List.mem_singleton.mp h with rfl
      rfl

/-- The text prologue of an assistant message is empty or one text block. -/
theorem assistantTextPart_shape (msg : OAIMsg) :
    assistantTextPart msg = [] ∨ ∃ t, assistantTextPart msg = [ContentPart.text t] := by
  unfold assistantTextPart
  rcases msg.content with _ | s | l
  · exact Or.inl rfl
  · dsimp only
    split_ifs
    · exact Or.inl rfl
    · exact Or.inl rfl
    · exact Or.inr ⟨_, rfl⟩
  · dsimp only
    split_ifs
    · exact Or.inl rfl
    · exact Or.inr ⟨_, rfl⟩

/-- Extracting the tool uses from the assembled content recovers exactly the
tool-use suffix, whatever shape the final content takes. -/
theorem toolUsesOf_assemble (tp tub : List ContentPart)
    (htp : tp = [] ∨ ∃ t, tp = [ContentPart.text t])
    (htub : tub.filter isToolUse = tub) :
    toolUsesOf (match tp ++ tub with
      | [] => Content.str ""
      | [ContentPart.text t] => Content.str t
      | l => Content.parts l) = tub := by
  rcases htp with rfl | ⟨t, rfl⟩
  · rw [List.nil_append]
    cases tub with
    | nil => simp [toolUsesOf, contentParts, isToolUse]
    | cons u tus =>
      have hu : isToolUse u = true := by
        have := congrArg (fun l => u ∈ l) htub
        exact (List.mem_filter.mp (by rw [htub]; exact List.mem_cons_self u tus)).2
      cases u with
      | text s => simp [isToolUse] at hu
      | image a b => simp [isToolUse] at hu
      | tool_result a b => simp [isToolUse] at hu
      | tool_use i n inp =>
        cases tus with
        | nil => simpa [toolUsesOf, contentParts] using htub
        | cons v tvs => simpa [toolUsesOf, contentParts] using htub
  · cases tub with
    | nil =>
      rw [List.append_nil]
      by_cases ht : t = "" <;> simp [toolUsesOf, contentParts, isToolUse, ht]
    | cons u tus =>
      rw [List.cons_append]
      show toolUsesOf (Content.parts (ContentPart.text t :: (u :: tus))) = u :: tus
      rw [show toolUsesOf (Content.parts (ContentPart.text t :: (u :: tus)))
            = (ContentPart.text t :: (u :: tus)).filter isToolUse from rfl]
      rw [List.filter_cons, if_neg (by simp [isToolUse])]
      exact htub

/-- The converted assistant content carries exactly the expected tool uses. -/
theorem convertAssistantMessage_toolUses (jp : String → Option Json) (msg : OAIMsg) :
    toolUsesOf (convertAssistantMessage jp msg) = toolUseBlocks jp msg := by
  unfold convertAssistantMessage
  simp only []
  rw [toolcalls_foldl]
  cases hfc : msg.function_call with
  | none =>
    dsimp only
    have := toolUsesOf_assemble (assistantTextPart msg)
      ((msg.tool_calls.filter (fun tc => tc.type == "function")).map
        (fun tc => ContentPart.tool_use tc.id tc.name (parseToolArgs jp tc.arguments)))
      (assistantTextPart_shape msg)
      (by
        have h := toolUseBlocks_filter jp msg
        unfold toolUseBlocks at h
        rw [hfc, List.append_nil] at h
        exact h)
    rw [show toolUseBlocks jp msg
          = (msg.tool_calls.filter (fun tc => tc.type == "function")).map
              (fun tc => ContentPart.tool_use tc.id tc.name (parseToolArgs jp tc.arguments)) from by
        unfold toolUseBlocks; rw [hfc, List.append_nil]]
    exact this
  | some fc =>
    dsimp only
    have hassoc :
        (assistantTextPart msg ++ (msg.tool_calls.filter (fun tc => tc.type == "function")).map
            (fun tc => ContentPart.tool_use tc.id tc.name (parseToolArgs jp tc.arguments)))
          ++ [ContentPart.tool_use (if fc.name = "" then "function" else fc.name)
                fc.name (parseToolArgs jp fc.arguments)]
        = assistantTextPart msg ++ toolUseBlocks jp msg := by
      unfold toolUseBlocks
      rw [hfc, List.append_assoc]
    rw [hassoc]
    exact toolUsesOf_assemble (assistantTextPart msg) (toolUseBlocks jp msg)
      (assistantTextPart_shape msg) (toolUseBlocks_filter jp msg)

/-- C6: an assistant message's `function`-typed tool calls convert to exactly
one `tool_use` block each, in order (none dropped); a call whose arguments
string fails to parse as JSON keeps that string verbatim as the `raw` field
of its input. -/
theorem assistant_toolcalls_preserved (jp : String → Option Json) (msg : OAIMsg)
    (tc : OAIToolCall) (s : String)
    (htc : tc ∈ msg.tool_calls) (hty : tc.type = "function")
    (harg : tc.arguments = some s) (hs : s ≠ "") (hjp : jp s = none) :
    toolUsesOf (convertAssistantMessage jp msg) = toolUseBlocks jp msg
    ∧ ContentPart.tool_use tc.id tc.name (Json.obj [("raw", Json.str s)])
        ∈ toolUsesOf (convertAssistantMessage jp msg) := by
  refine ⟨convertAssistantMessage_toolUses jp msg, ?_⟩
  rw [convertAssistantMessage_toolUses]
  unfold toolUseBlocks
  apply List.mem_append_left
  apply List.mem_map.mpr
  refine ⟨tc, List.mem_filter.mpr ⟨htc, by simp [hty]⟩, ?_⟩
  rw [harg]
  simp [parseToolArgs, hs, hjp]

/-- Assistant message for the C6 witness: a single tool call whose arguments
payload is not valid JSON. -/
def msgC6 : OAIMsg :=
  { role := "assistant", content := .nullc
  , tool_calls := [{ id := "call_1", type := "function", name := "get_weather"
                   , arguments := some "not json" }] }

/-- Tool call of `msgC6`. -/
def tcC6 : OAIToolCall :=
  { id := "call_1", type := "function", name := "get_weather", arguments := some "not json" }

/-- C6 witness: the malformed arguments string survives verbatim under `raw`
with a parser that rejects it. -/
theorem assistant_toolcalls_preserved_witness :
    (tcC6 ∈ msgC6.tool_calls ∧ tcC6.type = "function"
      ∧ tcC6.arguments = some "not json" ∧ ("not json" : String) ≠ ""
      ∧ (fun _ => (none : Option Json)) "not json" = (none : Option Json))
    ∧ (toolUsesOf (convertAssistantMessage (fun _ => none) msgC6)
          = toolUseBlocks (fun _ => none) msgC6
       ∧ ContentPart.tool_use tcC6.id tcC6.name (Json.obj [("raw", Json.str "not json")])
          ∈ toolUsesOf (convertAssistantMessage (fun _ => none) msgC6)) :=
  ⟨⟨List.mem_cons_self _ _, rfl, rfl, by decide, rfl⟩,
   assistant_toolcalls_preserved (fun _ => none) msgC6 tcC6 "not json"
     (List.mem_cons_self _ _) rfl rfl (by decide) rfl⟩

/-- C7: the adapter turns a plain two-delta text stream into exactly one
role frame, two content-delta frames in order, one finish frame with reason
`stop`, and the terminal `[DONE]` marker. -/
theorem streamAdapter_text_sequence (completionId model : String) :
    transformAnthropicStreamToOpenAI completionId model
      [ .message_start
      , .content_block_start 0 (some .text)
      , .content_block_delta 0 (some (.text_delta "Hi"))
      , .content_block_delta 0 (some (.text_delta " there"))
      , .message_delta (some "end_turn")
      , .message_stop ] =
    [ .chunk { id := completionId, model := model, delta := { role := some "assistant" } }
    , .chunk { id := completionId, model := model, delta := { content := some "Hi" } }
    , .chunk { id := completionId, model := model, delta := { content := some " there" } }
    , .chunk { id := completionId, model := model, finish_reason := some "stop" }
    , .done ] := rfl

/-- C8 counterexample: an event following an error event still produces a
frame — the stream is not terminated at the error event. -/
theorem streamAdapter_error_not_terminal :
    transformAnthropicStreamToOpenAI "chatcmpl-test" "gpt-4" [.error none none, .message_start]
      ≠ transformAnthropicStreamToOpenAI "chatcmpl-test" "gpt-4" [.error none none] := by
  decide

/-- C8 (amended): an error event makes the adapter emit exactly one client
error frame and leaves its state unchanged; processing of the remaining
events continues (termination is the upstream feeder's responsibility). -/
theorem streamAdapter_error_emits_one_frame_and_continues
    (completionId model : String) (st : AdapterState) (msg ty : Option String)
    (rest : List AEvent) :
    runFrames completionId model st (.error msg ty :: rest) =
      .errorFrame (jsOrStr msg "Unknown error") (jsOrStr ty "server_error")
        :: runFrames completionId model st rest := rfl

/-- Every frame `transform` emits as a chunk was built by `createStreamChunk`
with the adapter's closed-over completion id. -/
theorem transform_chunk_id (completionId model : String) (st : AdapterState) (e : AEvent)
    (f : Frame) (st' : AdapterState) (c : StreamChunk)
    (h : transform completionId model st e = (some f, st')) (hc : f = .chunk c) :
    c.id = completionId := by
  subst hc
  cases e <;> dsimp only [transform] at h <;>
    (repeat' split at h) <;>
    simp_all [createStreamChunk] <;>
    (obtain ⟨h1, _⟩ := h) <;> simp [← h1]

/-- Chunks collected by the stream loop all carry the adapter's id. -/
theorem runFrames_chunk_id (completionId model : String) :
    ∀ (events : List AEvent) (st : AdapterState) (f : Frame) (c : StreamChunk),
      f ∈ runFrames completionId model st events → f = .chunk c → c.id = completionId := by
  intro events
  induction events with
  | nil => intro st f c hf _; cases hf
  | cons e es ih =>
    intro st f c hf hc
    dsimp only [runFrames] at hf
    rcases he : transform completionId model st e with ⟨of, st'⟩
    rw [he] at hf
    cases of with
    | none => exact ih st' f c hf hc
    | some g =>
      rcases List.mem_cons.mp hf with h1 | h1
      · subst h1
        exact transform_chunk_id completionId model st e f st' c he hc
      · exact ih st' f c h1 hc

/-- C9 counterexample: the claim fails as stated — the frame emitted for an
error event carries no completion id at all. -/
theorem streamAdapter_frame_id_cex :
    ((transformAnthropicStreamToOpenAI "chatcmpl-abc" "gpt-4" [.error none none]).all
      (fun f => frameId f == some "chatcmpl-abc")) = false := by decide

/-- C9 (amended): every chunk frame (role, content, tool-call or finish)
emitted during one stream carries the single completion id generated at
adapter creation; error frames and the `[DONE]` marker carry no id. -/
theorem streamAdapter_chunk_frames_carry_id
    (completionId model : String) (events : List AEvent) (f : Frame) (c : StreamChunk)
    (hf : f ∈ transformAnthropicStreamToOpenAI completionId model events)
    (hc : f = .chunk c) :
    c.id = completionId ∧ frameId (.errorFrame "Unknown error" "server_error") = none
      ∧ frameId .done = none :=
  ⟨runFrames_chunk_id completionId model events {} f c hf hc, rfl, rfl⟩

/-- C9 witness: the role frame of a one-event stream carries the adapter id. -/
theorem streamAdapter_chunk_frames_carry_id_witness :
    (Frame.chunk { id := "chatcmpl-w", model := "m", delta := { role := some "assistant" } }
        ∈ transformAnthropicStreamToOpenAI "chatcmpl-w" "m" [.message_start])
    ∧ ({ id := "chatcmpl-w", model := "m", delta := { role := some "assistant" } } : StreamChunk).id
        = "chatcmpl-w"
    ∧ frameId (.errorFrame "Unknown error" "server_error") = none
    ∧ frameId .done = none :=
  ⟨by decide,
   streamAdapter_chunk_frames_carry_id "chatcmpl-w" "m" [.message_start]
     (Frame.chunk { id := "chatcmpl-w", model := "m", delta := { role := some "assistant" } })
     { id := "chatcmpl-w", model := "m", delta := { role := some "assistant" } }
     (by decide) rfl⟩

/-- C10: the strategy factory ignores the requested name — every call yields a
`RoundRobinStrategy`; `isValidStrategy` accepts exactly the case-insensitive
names `round-robin` and `roundrobin`, so the configured default `hybrid`
is rejected and the hybrid strategy can never be instantiated. -/
theorem strategyFactory_ignores_name (name : String) :
    createStrategy (some name) = StrategyInstance.RoundRobinStrategy
    ∧ createStrategy none = StrategyInstance.RoundRobinStrategy
    ∧ (isValidStrategy (some name) = true ↔
        (jsToLower name = "round-robin" ∨ jsToLower name = "roundrobin"))
    ∧ isValidStrategy (some defaultAccountSelectionStrategy) = false
    ∧ defaultAccountSelectionStrategy = "hybrid" := by
  refine ⟨rfl, rfl, ?_, by decide, rfl⟩
  by_cases h : name = ""
  · subst h; decide
  · simp [isValidStrategy, h]

end AntigravityProxy
